import Mathlib

/-
Verification of the transformation logic of the anosys-logger-4-openai
repository (files `tracing.py` and `decorator.py`).

The Python data values flowing through the library are JSON-like: None,
booleans, integers, strings, lists and dicts (dicts preserve insertion
order).  They are modelled by the mutual inductive family `JVal` / `JArr` /
`JObj` below; dicts are association lists in insertion order.  Python
exceptions are modelled by `Except PyErr`.  Restrictions of the model,
stated where they occur: JSON numbers are limited to integers (no claim
involves floats), string escapes cover the ASCII range, and
`datetime.fromisoformat(...).timestamp()` is modelled assuming UTC.
-/

set_option maxRecDepth 4000

/-- Python exceptions that the modelled code can raise.  In Python,
`json.JSONDecodeError` is a subclass of `ValueError`; both count as
validation errors. -/
inductive PyErr where
  | valueError
  | jsonDecodeError
  | typeError
  | indexError
  | attributeError
  deriving DecidableEq, Repr

/-- True for the errors that Python would catch with `except ValueError`:
`ValueError` itself and its subclass `json.JSONDecodeError`. -/
def PyErr.isValidation : PyErr → Bool
  | .valueError => true
  | .jsonDecodeError => true
  | _ => false

mutual

/-- A Python/JSON value: None, bool, int, str, list, dict. -/
inductive JVal where
  | null
  | bool (b : Bool)
  | int (n : Int)
  | str (s : String)
  | arr (xs : JArr)
  | dict (kvs : JObj)

/-- A Python list of `JVal`. -/
inductive JArr where
  | nil
  | cons (hd : JVal) (tl : JArr)

/-- A Python dict from strings to `JVal`, in insertion order. -/
inductive JObj where
  | nil
  | cons (k : String) (v : JVal) (tl : JObj)

end

/-- Lookup in a `JObj` (first, i.e. unique, occurrence of the key). -/
def objLookup : JObj → String → Option JVal
  | .nil, _ => none
  | .cons k v tl, key => if k = key then some v else objLookup tl key

/-- Python dict assignment `d[k] = v`: update in place if the key exists,
else append at the end (insertion order). -/
def objInsert : JObj → String → JVal → JObj
  | .nil, key, v => .cons key v .nil
  | .cons k v0 tl, key, v =>
      if k = key then .cons key v tl else .cons k v0 (objInsert tl key v)

/-- Iteration order of a dict, as a list of key/value pairs. -/
def objToList : JObj → List (String × JVal)
  | .nil => []
  | .cons k v tl => (k, v) :: objToList tl

/-- Keys of a dict in iteration order. -/
def objKeys : JObj → List String
  | .nil => []
  | .cons k _ tl => k :: objKeys tl

/-- Membership of a key in a dict. -/
def objHasKey (o : JObj) (k : String) : Bool :=
  (objLookup o k).isSome

/-- Build a `JObj` from a list the way Python builds a dict literal or a
parsed JSON object: repeated assignment, so a duplicate key keeps its first
position but the last value. -/
def objOfList (l : List (String × JVal)) : JObj :=
  l.foldl (fun acc p => objInsert acc p.1 p.2) .nil

/-- Length of a `JArr`. -/
def arrLen : JArr → Nat
  | .nil => 0
  | .cons _ tl => arrLen tl + 1

/-- Element access with a (guarded) natural index; out-of-range gives null,
but every use below is guarded by a bounds check. -/
def arrGet : JArr → Nat → JVal
  | .nil, _ => .null
  | .cons v _, 0 => v
  | .cons _ tl, n + 1 => arrGet tl n

/-- Replace the element at a (guarded) natural index. -/
def arrSet : JArr → Nat → JVal → JArr
  | .nil, _, _ => .nil
  | .cons _ tl, 0, v => .cons v tl
  | .cons w tl, n + 1, v => .cons w (arrSet tl n v)

/-- Concatenation of `JArr`. -/
def arrApp : JArr → JArr → JArr
  | .nil, b => b
  | .cons v tl, b => .cons v (arrApp tl b)

/-- A `JArr` of `n` copies of `v`. -/
def arrRep : Nat → JVal → JArr
  | 0, _ => .nil
  | n + 1, v => .cons v (arrRep n v)

/-- Build a `JArr` from a list. -/
def arrOfList : List JVal → JArr
  | [] => .nil
  | v :: tl => .cons v (arrOfList tl)

/-- Assoc-list lookup for plain string maps (used for `key_to_cvs` and the
remapped output dicts). -/
def alook {α : Type} : List (String × α) → String → Option α
  | [], _ => none
  | (k, v) :: tl, key => if k = key then some v else alook tl key

/-- Python dict assignment for plain string maps: update in place if the key
exists, else append. -/
def aset {α : Type} : List (String × α) → String → α → List (String × α)
  | [], key, v => [(key, v)]
  | (k, v0) :: tl, key, v =>
      if k = key then (key, v) :: tl else (k, v0) :: aset tl key v

/-- Characters written via their code points to keep the source free of
escape-heavy literals: double quote. -/
def cQuote : Char := Char.ofNat 34

/-- Backslash. -/
def cBslash : Char := Char.ofNat 92

/-- Single quote (apostrophe). -/
def cApos : Char := Char.ofNat 39

/-- Left curly brace. -/
def cLB : Char := Char.ofNat 123

/-- Right curly brace. -/
def cRB : Char := Char.ofNat 125

/-- Newline. -/
def cNL : Char := Char.ofNat 10

/-- Tab. -/
def cTab : Char := Char.ofNat 9

/-- Carriage return. -/
def cCR : Char := Char.ofNat 13

/-- Python whitespace for `str.strip` / `int()` (space, tab, newline,
carriage return, vertical tab, form feed; unicode whitespace beyond these is
out of the model). -/
def pyWs (c : Char) : Bool :=
  c = ' ' || c = cTab || c = cNL || c = cCR || c = Char.ofNat 11 || c = Char.ofNat 12

/-- Drop leading whitespace. -/
def dropWsL : List Char → List Char
  | [] => []
  | c :: tl => if pyWs c then dropWsL tl else c :: tl

/-- Python `str.strip()` on a character list. -/
def stripChars (cs : List Char) : List Char :=
  (dropWsL (dropWsL cs.reverse).reverse)

/-- Python `str.strip()`. -/
def pyStrip (s : String) : String :=
  String.mk (stripChars s.data)

/-- Helper for `splitDot`: split a character list on dots, accumulating the
current segment in reverse. -/
def splitDotGo (acc : List Char) : List Char → List String
  | [] => [String.mk acc.reverse]
  | c :: tl => if c = '.' then String.mk acc.reverse :: splitDotGo [] tl
               else splitDotGo (c :: acc) tl

/-- Python `path.split(".")`: split on every dot, no collapsing; the empty
string splits to a single empty segment. -/
def splitDot (s : String) : List String :=
  splitDotGo [] s.data

/-- Digit run of Python `int()`: at least one ASCII digit, single
underscores allowed between digits. -/
def digitsUndGo (acc : Nat) : List Char → Option Nat
  | [] => some acc
  | '_' :: c :: tl =>
      if c.isDigit then digitsUndGo (acc * 10 + (c.toNat - 48)) tl else none
  | c :: tl =>
      if c.isDigit then digitsUndGo (acc * 10 + (c.toNat - 48)) tl else none

/-- Parse a nonempty digit run (with `_` separators) to a natural number. -/
def digitsUnd : List Char → Option Nat
  | [] => none
  | c :: tl => if c.isDigit then digitsUndGo (c.toNat - 48) tl else none

/-- Model of Python `int(s)` for base 10: strip whitespace, optional sign,
digits with optional single underscores between them.  Non-ASCII digits are
out of the model.  Returns `none` where Python raises `ValueError`. -/
def pyIntParse (s : String) : Option Int :=
  match stripChars s.data with
  | '-' :: tl => (digitsUnd tl).map (fun n => -(n : Int))
  | '+' :: tl => (digitsUnd tl).map (fun n => (n : Int))
  | cs => (digitsUnd cs).map (fun n => (n : Int))

/-- Python truthiness of a `JVal` (`bool(x)`). -/
def pyTruthy : JVal → Bool
  | .null => false
  | .bool b => b
  | .int n => decide (n ≠ 0)
  | .str s => decide (s ≠ "")
  | .arr .nil => false
  | .arr _ => true
  | .dict .nil => false
  | .dict _ => true

/-- JSON whitespace accepted by the parser (space, tab, newline, CR). -/
def skipWsJ : List Char → List Char
  | [] => []
  | c :: tl => if c = ' ' || c = cTab || c = cNL || c = cCR then skipWsJ tl else c :: tl

/-- Hexadecimal digit value. -/
def hexVal (c : Char) : Option Nat :=
  if c.isDigit then some (c.toNat - 48)
  else if 'a' ≤ c ∧ c ≤ 'f' then some (c.toNat - 87)
  else if 'A' ≤ c ∧ c ≤ 'F' then some (c.toNat - 55)
  else none

/-- Parse the body of a JSON string (after the opening quote), handling the
standard escapes including BMP u-escapes; astral-plane surrogate pairs are
out of the model. -/
def parseStrBody (acc : List Char) : List Char → Option (String × List Char)
  | [] => none
  | c :: tl =>
    if c = cQuote then some (String.mk acc.reverse, tl)
    else if c = cBslash then
      match tl with
      | [] => none
      | e :: tl2 =>
        if e = cQuote then parseStrBody (cQuote :: acc) tl2
        else if e = cBslash then parseStrBody (cBslash :: acc) tl2
        else if e = '/' then parseStrBody ('/' :: acc) tl2
        else if e = 'b' then parseStrBody (Char.ofNat 8 :: acc) tl2
        else if e = 'f' then parseStrBody (Char.ofNat 12 :: acc) tl2
        else if e = 'n' then parseStrBody (cNL :: acc) tl2
        else if e = 'r' then parseStrBody (cCR :: acc) tl2
        else if e = 't' then parseStrBody (cTab :: acc) tl2
        else if e = 'u' then
          match tl2 with
          | a :: b :: c2 :: d :: tl3 =>
            match hexVal a, hexVal b, hexVal c2, hexVal d with
            | some x, some y, some z, some w =>
                parseStrBody (Char.ofNat (((x * 16 + y) * 16 + z) * 16 + w) :: acc) tl3
            | _, _, _, _ => none
          | _ => none
        else none
    else parseStrBody (c :: acc) tl

/-- Digit run for the JSON number grammar. -/
def parseDigitsRun (acc : Nat) : List Char → Nat × List Char
  | [] => (acc, [])
  | c :: tl => if c.isDigit then parseDigitsRun (acc * 10 + (c.toNat - 48)) tl
               else (acc, c :: tl)

/-- Reject a numeric literal continued by a fraction or exponent: JSON
floats are outside the model (no claim involves them), so they parse as
errors rather than as truncated integers. -/
def checkNoFloat (p : Nat × List Char) : Option (Nat × List Char) :=
  match p.2 with
  | c :: _ => if c = '.' || c = 'e' || c = 'E' then none else some p
  | [] => some p

/-- Unsigned integer of the JSON grammar (a lone `0` or a nonzero digit
followed by digits). -/
def parseUIntJ : List Char → Option (Nat × List Char)
  | [] => none
  | c :: tl =>
    if c = '0' then checkNoFloat (0, tl)
    else if c.isDigit then checkNoFloat (parseDigitsRun (c.toNat - 48) tl)
    else none

/-- Signed integer of the JSON grammar. -/
def parseNumJ (cs : List Char) : Option (Int × List Char) :=
  match cs with
  | '-' :: tl => (parseUIntJ tl).map (fun p => (-(p.1 : Int), p.2))
  | _ => (parseUIntJ cs).map (fun p => ((p.1 : Int), p.2))

/-- Intermediate results of the JSON parser: a value, the members of an
object, or the elements of an array. -/
inductive PPart where
  | val (v : JVal)
  | fields (l : List (String × JVal))
  | elems (l : List JVal)

/-- Recursive-descent JSON parser with explicit fuel (`mode` 0 parses a
value, 1 the members of an object after the opening brace, 2 the elements
of an array after the opening bracket).  Duplicate object keys are combined
by repeated dict assignment, as `json.loads` does. -/
def parseP : Nat → Nat → List Char → Option (PPart × List Char)
  | 0, _, _ => none
  | fuel + 1, mode, cs =>
    if mode = 0 then
      match skipWsJ cs with
      | [] => none
      | c :: tl =>
        if c = cLB then
          match skipWsJ tl with
          | [] => none
          | c2 :: tl2 =>
            if c2 = cRB then some (.val (.dict .nil), tl2)
            else
              match parseP fuel 1 (c2 :: tl2) with
              | some (.fields l, rem) => some (.val (.dict (objOfList l)), rem)
              | _ => none
        else if c = '[' then
          match skipWsJ tl with
          | [] => none
          | c2 :: tl2 =>
            if c2 = ']' then some (.val (.arr .nil), tl2)
            else
              match parseP fuel 2 (c2 :: tl2) with
              | some (.elems l, rem) => some (.val (.arr (arrOfList l)), rem)
              | _ => none
        else if c = cQuote then
          (parseStrBody [] tl).map (fun p => (.val (.str p.1), p.2))
        else if c = 't' then
          match tl with
          | 'r' :: 'u' :: 'e' :: rem => some (.val (.bool true), rem)
          | _ => none
        else if c = 'f' then
          match tl with
          | 'a' :: 'l' :: 's' :: 'e' :: rem => some (.val (.bool false), rem)
          | _ => none
        else if c = 'n' then
          match tl with
          | 'u' :: 'l' :: 'l' :: rem => some (.val .null, rem)
          | _ => none
        else
          (parseNumJ (c :: tl)).map (fun p => (.val (.int p.1), p.2))
    else if mode = 1 then
      match skipWsJ cs with
      | c :: tl =>
        if c = cQuote then
          match parseStrBody [] tl with
          | some (k, rem) =>
            match skipWsJ rem with
            | c2 :: rem2 =>
              if c2 = ':' then
                match parseP fuel 0 rem2 with
                | some (.val v, rem3) =>
                  match skipWsJ rem3 with
                  | c3 :: rem4 =>
                    if c3 = ',' then
                      match parseP fuel 1 rem4 with
                      | some (.fields l, rem5) => some (.fields ((k, v) :: l), rem5)
                      | _ => none
                    else if c3 = cRB then some (.fields [(k, v)], rem4)
                    else none
                  | [] => none
                | _ => none
              else none
            | [] => none
          | none => none
        else none
      | [] => none
    else
      match parseP fuel 0 cs with
      | some (.val v, rem) =>
        match skipWsJ rem with
        | c :: rem2 =>
          if c = ',' then
            match parseP fuel 2 rem2 with
            | some (.elems l, rem3) => some (.elems (v :: l), rem3)
            | _ => none
          else if c = ']' then some (.elems [v], rem2)
          else none
        | [] => none
      | _ => none

/-- Model of Python `json.loads` (restricted to integer numbers): parse one
JSON value surrounded by optional whitespace; `none` models a raised
`json.JSONDecodeError`. -/
def jsonLoads (s : String) : Option JVal :=
  let cs := s.data
  match parseP (2 * cs.length + 2) 0 cs with
  | some (.val v, rem) => if (skipWsJ rem).isEmpty then some v else none
  | _ => none

/-- Lowercase hexadecimal digit character. -/
def hexDigitChar (n : Nat) : Char :=
  if n < 10 then Char.ofNat (48 + n) else Char.ofNat (87 + n)

/-- Four-digit hexadecimal rendering for u-escapes. -/
def toHex4 (n : Nat) : List Char :=
  [hexDigitChar (n / 4096 % 16), hexDigitChar (n / 256 % 16),
   hexDigitChar (n / 16 % 16), hexDigitChar (n % 16)]

/-- Escaping of one character as `json.dumps` does with its default
`ensure_ascii=True` (astral-plane surrogate pairs out of the model). -/
def escChar (c : Char) : List Char :=
  if c = cQuote then [cBslash, cQuote]
  else if c = cBslash then [cBslash, cBslash]
  else if c = cNL then [cBslash, 'n']
  else if c = cTab then [cBslash, 't']
  else if c = cCR then [cBslash, 'r']
  else if c = Char.ofNat 8 then [cBslash, 'b']
  else if c = Char.ofNat 12 then [cBslash, 'f']
  else if c.toNat < 32 || c.toNat > 126 then cBslash :: 'u' :: toHex4 c.toNat
  else [c]

/-- Escape a whole character list. -/
def escChars : List Char → List Char
  | [] => []
  | c :: tl => escChar c ++ escChars tl

mutual

/-- Model of Python `json.dumps` with default arguments (separators
`", "` and `": "`), producing characters. -/
def dumpChars : JVal → List Char
  | .null => 'n' :: 'u' :: 'l' :: 'l' :: []
  | .bool true => 't' :: 'r' :: 'u' :: 'e' :: []
  | .bool false => 'f' :: 'a' :: 'l' :: 's' :: 'e' :: []
  | .int n => (toString n).data
  | .str s => cQuote :: (escChars s.data ++ [cQuote])
  | .arr a => '[' :: (dumpArrChars a ++ [']'])
  | .dict o => cLB :: (dumpObjChars o ++ [cRB])

/-- Array elements of `dumpChars`. -/
def dumpArrChars : JArr → List Char
  | .nil => []
  | .cons v .nil => dumpChars v
  | .cons v tl => dumpChars v ++ (',' :: ' ' :: dumpArrChars tl)

/-- Object members of `dumpChars`. -/
def dumpObjChars : JObj → List Char
  | .nil => []
  | .cons k v .nil => cQuote :: (escChars k.data ++ (cQuote :: ':' :: ' ' :: dumpChars v))
  | .cons k v tl =>
      (cQuote :: (escChars k.data ++ (cQuote :: ':' :: ' ' :: dumpChars v)))
        ++ (',' :: ' ' :: dumpObjChars tl)

end

/-- Model of Python `json.dumps(v)` with default arguments. -/
def jsonDumps (v : JVal) : String :=
  String.mk (dumpChars v)

/-- Indentation prefix used by `json.dumps(..., indent=2)`. -/
def indentChars (lvl : Nat) : List Char :=
  List.replicate (2 * lvl) ' '

mutual

/-- Model of Python `json.dumps(v, indent=2)` (item separator `","` plus
newline, key separator `": "`), producing characters. -/
def dumpIndChars : Nat → JVal → List Char
  | _, .null => 'n' :: 'u' :: 'l' :: 'l' :: []
  | _, .bool true => 't' :: 'r' :: 'u' :: 'e' :: []
  | _, .bool false => 'f' :: 'a' :: 'l' :: 's' :: 'e' :: []
  | _, .int n => (toString n).data
  | _, .str s => cQuote :: (escChars s.data ++ [cQuote])
  | _, .arr .nil => ['[', ']']
  | lvl, .arr (.cons v tl) =>
      '[' :: cNL :: (dumpIndArr (lvl + 1) (.cons v tl)
        ++ (cNL :: (indentChars lvl ++ [']'])))
  | _, .dict .nil => [cLB, cRB]
  | lvl, .dict (.cons k v tl) =>
      cLB :: cNL :: (dumpIndObj (lvl + 1) (.cons k v tl)
        ++ (cNL :: (indentChars lvl ++ [cRB])))

/-- Array elements of `dumpIndChars`. -/
def dumpIndArr : Nat → JArr → List Char
  | _, .nil => []
  | lvl, .cons v .nil => indentChars lvl ++ dumpIndChars lvl v
  | lvl, .cons v tl =>
      (indentChars lvl ++ dumpIndChars lvl v) ++ (',' :: cNL :: dumpIndArr lvl tl)

/-- Object members of `dumpIndChars`. -/
def dumpIndObj : Nat → JObj → List Char
  | _, .nil => []
  | lvl, .cons k v .nil =>
      indentChars lvl ++ (cQuote :: (escChars k.data
        ++ (cQuote :: ':' :: ' ' :: dumpIndChars lvl v)))
  | lvl, .cons k v tl =>
      (indentChars lvl ++ (cQuote :: (escChars k.data
        ++ (cQuote :: ':' :: ' ' :: dumpIndChars lvl v))))
        ++ (',' :: cNL :: dumpIndObj lvl tl)

end

/-- Model of Python `json.dumps(v, indent=2)`. -/
def jsonDumpsInd (v : JVal) : String :=
  String.mk (dumpIndChars 0 v)

/-- Escaping of one character under Python `repr` for strings delimited by
single quotes (only quote and backslash escapes are modelled). -/
def reprEscChar (c : Char) : List Char :=
  if c = cBslash then [cBslash, cBslash]
  else if c = cApos then [cBslash, cApos]
  else [c]

/-- Escape a whole character list for `repr`. -/
def reprEscChars : List Char → List Char
  | [] => []
  | c :: tl => reprEscChar c ++ reprEscChars tl

mutual

/-- Model of Python `repr` on JSON-like values (`str` of a dict or list
delegates to `repr`). -/
def reprChars : JVal → List Char
  | .null => 'N' :: 'o' :: 'n' :: 'e' :: []
  | .bool true => 'T' :: 'r' :: 'u' :: 'e' :: []
  | .bool false => 'F' :: 'a' :: 'l' :: 's' :: 'e' :: []
  | .int n => (toString n).data
  | .str s => cApos :: (reprEscChars s.data ++ [cApos])
  | .arr a => '[' :: (reprArrChars a ++ [']'])
  | .dict o => cLB :: (reprObjChars o ++ [cRB])

/-- Array elements of `reprChars`. -/
def reprArrChars : JArr → List Char
  | .nil => []
  | .cons v .nil => reprChars v
  | .cons v tl => reprChars v ++ (',' :: ' ' :: reprArrChars tl)

/-- Object members of `reprChars`. -/
def reprObjChars : JObj → List Char
  | .nil => []
  | .cons k v .nil => cApos :: (reprEscChars k.data ++ (cApos :: ':' :: ' ' :: reprChars v))
  | .cons k v tl =>
      (cApos :: (reprEscChars k.data ++ (cApos :: ':' :: ' ' :: reprChars v)))
        ++ (',' :: ' ' :: reprObjChars tl)

end

/-- Model of Python `str(v)`: a string is itself, everything else is its
`repr` (which for None/True/False/ints is the usual text). -/
def pyStr (v : JVal) : String :=
  match v with
  | .str s => s
  | v => String.mk (reprChars v)

/-- The expression `str(value) if value is not None else None` used by
`reassign`. -/
def pyStrOpt (v : JVal) : Option String :=
  match v with
  | .null => none
  | v => some (pyStr v)

/-- The helper `to_str_or_none` of `tracing.py` and `decorator.py`: None
passes through, dicts and lists are JSON-serialized, all else stringified. -/
def toStrOrNone (v : JVal) : JVal :=
  match v with
  | .null => .null
  | .dict o => .str (jsonDumps (.dict o))
  | .arr a => .str (jsonDumps (.arr a))
  | v => .str (pyStr v)

/-- Does the string start with a left brace or bracket (the JSON-looking
check of `assign` and `set_nested`)? -/
def startsBrace (s : String) : Bool :=
  match s.data with
  | c :: _ => c = cLB || c = '['
  | [] => false

/-- The value normalization of the nested `assign` helper of
`extract_span_info` (`tracing.py`) and the top-level `assign` of
`decorator.py`: None passes through; a string is stripped and, when it then
starts with a brace or bracket, parsed and re-serialized compactly (on
parse failure the stripped string is stored); dicts and lists are
JSON-serialized; anything else passes through unchanged. -/
def assignNorm (v : JVal) : JVal :=
  match v with
  | .null => .null
  | .str s =>
      let t := pyStrip s
      if startsBrace t then
        match jsonLoads t with
        | some p => .str (jsonDumps p)
        | none => .str t
      else .str t
  | .dict o => .str (jsonDumps (.dict o))
  | .arr a => .str (jsonDumps (.arr a))
  | v => v

/-- One `assign(variables, variable, var_value)` step: store the normalized
value under the key. -/
def assignV (vars : JObj) (k : String) (v : JVal) : JObj :=
  objInsert vars k (assignNorm v)

/-- Terminal value normalization of `set_nested`: a string whose stripped
form starts with a brace or bracket is parsed as JSON (the parsed value is
stored); on parse failure the original string is kept unchanged. -/
def setNorm (v : JVal) : JVal :=
  match v with
  | .str s =>
      if startsBrace (pyStrip s) then
        match jsonLoads s with
        | some p => p
        | none => .str s
      else .str s
  | v => v

/-- Python list index normalization: a valid index (possibly negative) is
mapped to the effective position, an out-of-range index to `none`
(`IndexError`). -/
def pyElemNorm (len : Nat) (i : Int) : Option Nat :=
  if 0 ≤ i ∧ i < (len : Int) then some i.toNat
  else if -(len : Int) ≤ i ∧ i < 0 then some (i + (len : Int)).toNat
  else none

/-- Python indexing `l[i]` on the list of path segments (negative indices
wrap; out of range raises `IndexError`). -/
def pyStrIndex (l : List String) (i : Int) : Except PyErr String :=
  match pyElemNorm l.length i with
  | some j => .ok (l.getD j "")
  | none => .error .indexError

/-- The `while len(current) <= idx: current.append(filler)` growth loop of
`set_nested` (no growth for a negative index, since `len` is never ≤ it). -/
def pyGrow (a : JArr) (idx : Int) (filler : JVal) : JArr :=
  if idx < 0 then a else arrApp a (arrRep (idx.toNat + 1 - arrLen a) filler)

/-- Handling of the terminal path segment of `set_nested` (`tracing.py`
lines 177-197).  `allParts` is the full segment list, needed because the
code reads `parts[-2]` (raising `IndexError` on a single-segment numeric
path when the target is a dict).  On a dict target with a numeric final
segment the code rewrites `current[parts[-2]]`, i.e. the current dict
itself, not the parent.  On a non-dict, non-list target the fresh list is
unreachable from the tree, so the subtree is returned unchanged (Python
mutates an orphan object) while index errors still propagate. -/
def snFinal (allParts : List String) (value : JVal) (fin : String) (current : JVal) :
    Except PyErr JVal :=
  match pyIntParse fin with
  | some fk =>
    match current with
    | .arr xs =>
        let xs := pyGrow xs fk .null
        let v := setNorm value
        match pyElemNorm (arrLen xs) fk with
        | some j => .ok (.arr (arrSet xs j v))
        | none => .error .indexError
    | .dict kvs => do
        let key2 ← pyStrIndex allParts (-2)
        let L := pyGrow .nil fk .null
        let v := setNorm value
        match pyElemNorm (arrLen L) fk with
        | some j => .ok (.dict (objInsert kvs key2 (.arr (arrSet L j v))))
        | none => .error .indexError
    | other =>
        let L := pyGrow .nil fk .null
        match pyElemNorm (arrLen L) fk with
        | some _ => .ok other
        | none => .error .indexError
  | none =>
    let v := setNorm value
    match current with
    | .dict kvs => .ok (.dict (objInsert kvs fin v))
    | _ => .error .typeError

/-- The walk of `set_nested` over the path segments (`tracing.py` lines
162-176), written as a function from the current subtree to the updated
subtree.  This is faithful because every mutation the Python loop performs
is inside the node `current` points at: in the integer-segment branch the
code sets `current_parent = current` before replacing, so the new list is
hooked into the *current* container (under the key `parts[i-1]`, with
Python's negative indexing at `i = 0`), never into the real parent.  On a
scalar `current` the fresh list is orphaned: writes into it are lost but
exceptions still propagate.  `i` is the position of the head of `rest`
inside `allParts`. -/
def snGo (allParts : List String) (value : JVal) :
    Nat → List String → JVal → Except PyErr JVal
  | _, [], current => .ok current
  | _, [fin], current => snFinal allParts value fin current
  | i, part :: p2 :: rest, current =>
    match pyIntParse part with
    | some idx =>
      match current with
      | .arr xs =>
          let xs := pyGrow xs idx (.dict .nil)
          match pyElemNorm (arrLen xs) idx with
          | some j => do
              let child ← snGo allParts value (i + 1) (p2 :: rest) (arrGet xs j)
              .ok (.arr (arrSet xs j child))
          | none => .error .indexError
      | .dict kvs => do
          let key ← pyStrIndex allParts ((i : Int) - 1)
          let L := pyGrow .nil idx (.dict .nil)
          match pyElemNorm (arrLen L) idx with
          | some j => do
              let child ← snGo allParts value (i + 1) (p2 :: rest) (arrGet L j)
              .ok (.dict (objInsert kvs key (.arr (arrSet L j child))))
          | none => .error .indexError
      | other =>
          let L := pyGrow .nil idx (.dict .nil)
          match pyElemNorm (arrLen L) idx with
          | some j => do
              let _ ← snGo allParts value (i + 1) (p2 :: rest) (arrGet L j)
              .ok other
          | none => .error .indexError
    | none =>
      match current with
      | .dict kvs =>
          let child0 := match objLookup kvs part with
            | some (.dict o) => JVal.dict o
            | some (.arr a) => JVal.arr a
            | _ => JVal.dict .nil
          do
            let child ← snGo allParts value (i + 1) (p2 :: rest) child0
            .ok (.dict (objInsert kvs part child))
      | _ => .error .typeError

/-- Model of `set_nested(obj, path, value)` (`tracing.py` lines 159-197),
returning the updated tree or the raised exception.  Python mutates `obj`
in place; partial mutations before a raise are not observable through
`deserialize_attributes`, whose result dict is abandoned when the exception
propagates. -/
def setNested (obj : JVal) (path : String) (value : JVal) : Except PyErr JVal :=
  let parts := splitDot path
  snGo parts value 0 parts obj

/-- Fold `set_nested` over the flat attribute items, as the loop of
`deserialize_attributes` does. -/
def buildNested : List (String × JVal) → JVal → Except PyErr JVal
  | [], acc => .ok acc
  | (k, v) :: tl, acc => do
      let acc2 ← setNested acc k v
      buildNested tl acc2

/-- Model of `deserialize_attributes(obj)` (`tracing.py` lines 200-206):
rebuild the nested tree from the flat `attributes` mapping and store it
back under `attributes`.  A non-dict `obj`, or a non-dict `attributes`
value, raises `AttributeError` (`.get` / `.items` on the wrong type). -/
def deserializeAttributes (obj : JVal) : Except PyErr JVal :=
  match obj with
  | .dict kvs =>
    match (objLookup kvs "attributes").getD (.dict .nil) with
    | .dict flat => do
        let newAttrs ← buildNested (objToList flat) (.dict .nil)
        .ok (.dict (objInsert kvs "attributes" newAttrs))
    | _ => .error .attributeError
  | _ => .error .attributeError

/-- The per-key loop of `reassign` (`tracing.py` lines 67-72 and the
identical `decorator.py` lines 48-53): `k2c` is the global `key_to_cvs`
mapping, `idx` the per-call counter, `out` the `cvs_vars` dict built so
far. -/
def reassignLoop : JObj → List (String × String) → Nat → List (String × Option String) →
    List (String × String) × List (String × Option String)
  | .nil, k2c, _, out => (k2c, out)
  | .cons k v tl, k2c, idx, out =>
    match alook k2c k with
    | some t => reassignLoop tl k2c idx (aset out t (pyStrOpt v))
    | none =>
      let t := "cvs" ++ Nat.repr idx
      reassignLoop tl (aset k2c k t) (idx + 1) (aset out t (pyStrOpt v))

/-- The function `reassign` applied to dict entries with a given starting
index, returning the updated `key_to_cvs` and the output dict. -/
def reassignObj (k2c : List (String × String)) (si : Nat) (o : JObj) :
    List (String × String) × List (String × Option String) :=
  reassignLoop o k2c si []

/-- Model of `reassign(data, starting_index)` (`tracing.py` lines 55-74,
`decorator.py` lines 36-55): a string input is JSON-decoded first
(`JSONDecodeError` on failure); a non-dict input raises the
`ValueError("Input must be a dict or JSON string representing a dict")`;
a dict input is processed by the per-key loop. -/
def reassign (k2c : List (String × String)) (data : JVal) (si : Nat) :
    Except PyErr (List (String × String) × List (String × Option String)) := do
  let d ← match data with
    | .str s =>
      match jsonLoads s with
      | some v => Except.ok v
      | none => Except.error PyErr.jsonDecodeError
    | v => Except.ok v
  match d with
  | .dict o => .ok (reassignObj k2c si o)
  | _ => .error .valueError

/-- Parse exactly `n` ASCII digits. -/
def parseDigitsN : Nat → Nat → List Char → Option (Nat × List Char)
  | 0, acc, cs => some (acc, cs)
  | n + 1, acc, cs =>
    match cs with
    | c :: tl => if c.isDigit then parseDigitsN n (acc * 10 + (c.toNat - 48)) tl else none
    | [] => none

/-- Leap year rule of the proleptic Gregorian calendar. -/
def isLeap (y : Int) : Bool :=
  (y % 4 = 0 && y % 100 ≠ 0) || y % 400 = 0

/-- Days in a month. -/
def daysInMonth (y : Int) (m : Nat) : Nat :=
  if m = 2 then (if isLeap y then 29 else 28)
  else if m = 4 || m = 6 || m = 9 || m = 11 then 30
  else 31

/-- Days from the civil epoch 1970-01-01 (standard `days_from_civil`
algorithm); the year is at least 1 wherever this is used, so the
truncating `Int` division agrees with the intended floor division. -/
def daysFromCivil (y : Int) (m d : Nat) : Int :=
  let y2 : Int := if m ≤ 2 then y - 1 else y
  let era : Int := (if 0 ≤ y2 then y2 else y2 - 399) / 400
  let yoe : Int := y2 - era * 400
  let mp : Int := ((m : Int) + 9) % 12
  let doy : Int := (153 * mp + 2) / 5 + (d : Int) - 1
  let doe : Int := yoe * 365 + yoe / 4 - yoe / 100 + doy
  era * 146097 + doe - 719468

/-- Model of `int(datetime.fromisoformat(s).timestamp())` for the basic
`YYYY-MM-DD[{T or space}HH:MM:SS]` forms, assuming UTC for the naive
datetime (Python uses the local timezone; no claim depends on the numeric
value).  Other ISO-8601 variants accepted by Python are out of the model
and return `none` (the `ValueError` path). -/
def isoTimestamp (s : String) : Option Int :=
  match parseDigitsN 4 0 s.data with
  | some (y, '-' :: r1) =>
    match parseDigitsN 2 0 r1 with
    | some (mo, '-' :: r2) =>
      match parseDigitsN 2 0 r2 with
      | some (d, rest) =>
        let dateOk := 1 ≤ y && 1 ≤ mo && mo ≤ 12 && 1 ≤ d && d ≤ daysInMonth y mo
        match rest with
        | [] => if dateOk then some (daysFromCivil y mo d * 86400) else none
        | c :: r3 =>
          if c = 'T' || c = ' ' then
            match parseDigitsN 2 0 r3 with
            | some (hh, ':' :: r4) =>
              match parseDigitsN 2 0 r4 with
              | some (mi, ':' :: r5) =>
                match parseDigitsN 2 0 r5 with
                | some (ss, []) =>
                  if dateOk && hh ≤ 23 && mi ≤ 59 && ss ≤ 59 then
                    some (daysFromCivil y mo d * 86400 + hh * 3600 + mi * 60 + ss)
                  else none
                | _ => none
              | _ => none
            | _ => none
          else none
      | _ => none
    | _ => none
  | _ => none

/-- Model of `_to_timestamp(dt_str)` (`tracing.py` lines 20-26): a falsy
argument gives None; a string is parsed (`ValueError` is caught and gives
None); a truthy non-string raises `TypeError` from `fromisoformat`,
which the code does not catch. -/
def toTimestamp (v : JVal) : Except PyErr JVal :=
  if pyTruthy v = false then .ok .null
  else match v with
    | .str s =>
      match isoTimestamp s with
      | some n => .ok (.int n)
      | none => .ok .null
    | _ => .error .typeError

/-- Python `x.get(k, dflt)`: defined on dicts, `AttributeError` on any
other receiver. -/
def pyGetAttr (v : JVal) (k : String) (dflt : JVal) : Except PyErr JVal :=
  match v with
  | .dict kvs => .ok ((objLookup kvs k).getD dflt)
  | _ => .error .attributeError

/-- The pattern `(kvs.get('value') or {}).get('id')` of the `resp_id`
probe: a falsy `value` is replaced by an empty dict; calling `.get` on a
truthy non-dict `value` raises `AttributeError`. -/
def valueIdOf (kvs : JObj) : Except PyErr JVal :=
  let v := (objLookup kvs "value").getD .null
  let v2 := if pyTruthy v then v else .dict .nil
  match v2 with
  | .dict kvs2 => .ok ((objLookup kvs2 "id").getD .null)
  | _ => .error .attributeError

/-- The `resp_id` extraction of `extract_span_info` (`tracing.py` lines
134-150): probe a dict, a nonempty list whose first element is a dict, or
a JSON string decoding to a dict.  Only in the string branch is the probe
wrapped in `try/except Exception`, so only there is the `AttributeError`
of `valueIdOf` swallowed. -/
def respIdOf (outputAttr : JVal) : Except PyErr JVal :=
  match outputAttr with
  | .dict kvs => valueIdOf kvs
  | .arr (.cons first _) =>
      match first with
      | .dict kvs => valueIdOf kvs
      | _ => .ok .null
  | .arr .nil => .ok .null
  | .str s =>
      match jsonLoads s with
      | some (.dict kvs) =>
          match valueIdOf kvs with
          | .ok r => .ok r
          | .error _ => .ok .null
      | _ => .ok .null
  | _ => .ok .null

/-- The `variables` dict built by `extract_span_info(span, raw_json)`
(`tracing.py` lines 77-155) just before the final `reassign` call, with
the `assign` calls in source order.  Errors surface exactly where the
Python attribute accesses or the uncaught probes raise. -/
def extractSpanInfoVars (span : JVal) (rawJson : Option JVal) : Except PyErr JObj := do
  let nameV ← pyGetAttr span "name" .null
  let vars := assignV .nil "name" (toStrOrNone nameV)
  let ctx ← pyGetAttr span "context" (.dict .nil)
  let tid ← pyGetAttr ctx "trace_id" .null
  let vars := assignV vars "trace_id" (toStrOrNone tid)
  let sid ← pyGetAttr ctx "span_id" .null
  let vars := assignV vars "span_id" (toStrOrNone sid)
  let tst ← pyGetAttr ctx "trace_state" .null
  let vars := assignV vars "trace_state" (toStrOrNone tst)
  let pid ← pyGetAttr span "parent_id" .null
  let vars := assignV vars "parent_id" (toStrOrNone pid)
  let st ← pyGetAttr span "start_time" .null
  let vars := assignV vars "start_time" (toStrOrNone st)
  let ts1 ← toTimestamp st
  let vars := assignV vars "cvn1" ts1
  let et ← pyGetAttr span "end_time" .null
  let vars := assignV vars "end_time" (toStrOrNone et)
  let ts2 ← toTimestamp et
  let vars := assignV vars "cvn2" ts2
  let attributes ← pyGetAttr span "attributes" (.dict .nil)
  let llm ← pyGetAttr attributes "llm" (.dict .nil)
  let tools ← pyGetAttr llm "tools" .null
  let vars := assignV vars "llm_tools" (toStrOrNone tools)
  let tc ← pyGetAttr llm "token_count" .null
  let vars := assignV vars "llm_token_count" (toStrOrNone tc)
  let om1 ← pyGetAttr llm "output_messages" (.dict .nil)
  let om ← pyGetAttr om1 "output_messages" .null
  let vars := assignV vars "llm_output_messages" (toStrOrNone om)
  let im1 ← pyGetAttr llm "input_messages" (.dict .nil)
  let im ← pyGetAttr im1 "input_messages" .null
  let vars := assignV vars "llm_input_messages" (toStrOrNone im)
  let mn ← pyGetAttr llm "model_name" .null
  let vars := assignV vars "llm_model_name" (toStrOrNone mn)
  let ip ← pyGetAttr llm "invocation_parameters" .null
  let vars := assignV vars "llm_invocation_parameters" (toStrOrNone ip)
  let inp1 ← pyGetAttr attributes "input" (.dict .nil)
  let inpv ← pyGetAttr inp1 "value" .null
  let vars := assignV vars "input" (toStrOrNone inpv)
  let out1 ← pyGetAttr attributes "output" (.dict .nil)
  let outv ← pyGetAttr out1 "value" .null
  let vars := assignV vars "output" (toStrOrNone outv)
  let toolv ← pyGetAttr attributes "tool" (.dict .nil)
  let vars := assignV vars "tool" (toStrOrNone toolv)
  let fi ← pyGetAttr attributes "fi" (.dict .nil)
  let fsp ← pyGetAttr fi "span" (.dict .nil)
  let kv ← pyGetAttr fsp "kind" .null
  let vars := assignV vars "kind" (toStrOrNone kv)
  let vars := assignV vars "from_source" (.str "openAI_Telemetry")
  let outputAttr ← pyGetAttr attributes "output" .null
  let respId ← respIdOf outputAttr
  let vars := assignV vars "resp_id" (toStrOrNone respId)
  let vars := match rawJson with
    | some r => assignV vars "raw" (.str (jsonDumps r))
    | none => vars
  pure vars

/-- The initial global `key_to_cvs` of `tracing.py` (lines 29-52). -/
def keyToCvs0 : List (String × String) :=
  [("cvn1", "cvn1"), ("cvn2", "cvn2"), ("name", "otel_name"),
   ("trace_id", "otel_trace_id"), ("span_id", "otel_span_id"),
   ("trace_state", "otel_trace_flags"), ("parent_id", "otel_parent_span_id"),
   ("start_time", "otel_start_time"), ("end_time", "otel_end_time"),
   ("kind", "otel_kind"), ("resp_id", "otel_status_message"),
   ("input", "cvs1"), ("output", "cvs2"), ("tool", "cvs3"),
   ("llm_tools", "cvs4"), ("llm_token_count", "cvs5"),
   ("llm_output_messages", "cvs6"), ("llm_input_messages", "cvs7"),
   ("llm_model_name", "cvs8"), ("llm_invocation_parameters", "cvs9"),
   ("from_source", "cvs200"), ("raw", "cvs199")]

/-- The initial `key_to_cvs` of `decorator.py` (lines 9-13). -/
def keyToCvsDec0 : List (String × String) :=
  [("input", "cvs14"), ("output", "cvs15"), ("source", "cvs200")]

/-- Full `extract_span_info`: build the variables, then return
`reassign(variables)` with the tracing default starting index 20,
threading the global `key_to_cvs` state explicitly. -/
def extractSpanInfo (k2c : List (String × String)) (span : JVal) (rawJson : Option JVal) :
    Except PyErr (List (String × String) × List (String × Option String)) :=
  match extractSpanInfoVars span rawJson with
  | .error e => .error e
  | .ok vars => reassign k2c (.dict vars) 20

/-- Outcome of one `requests.post` call: a 2xx response, a non-2xx response
(on which `raise_for_status` raises `HTTPError`), or a network exception
from `post` itself.  Both failure kinds land in the `except` branch. -/
inductive PostOutcome where
  | ok2xx
  | httpError
  | netError
  deriving DecidableEq, Repr

/-- Does this POST outcome reach the `except` branch? -/
def netFail : PostOutcome → Bool
  | .ok2xx => false
  | _ => true

/-- Result type of the SDK export hook (`SpanExportResult`). -/
inductive ExportResult where
  | success
  | failure
  deriving DecidableEq, Repr

/-- The per-span loop of `CustomConsoleExporter.export` (`tracing.py`
lines 210-221).  `net` gives the outcome of the i-th POST; `att`
accumulates the payload of every attempted POST in order and `lg` the
payloads logged to the console by the `except` branch.  Note that
`deserialize_attributes` mutates `span_json` in place before
`extract_span_info` reads `raw_json`, so the raw argument is the already
reconstructed object; and that the two processing calls are outside the
`try`, so their exceptions propagate out of the loop. -/
def exportGo (net : Nat → PostOutcome) :
    List JVal → List (String × String) → Nat → List (List (String × Option String)) →
    List (List (String × Option String)) →
    Except PyErr (List (String × String) × List (List (String × Option String)) ×
      List (List (String × Option String)))
  | [], k2c, _, att, lg => .ok (k2c, att, lg)
  | s :: rest, k2c, i, att, lg =>
      match deserializeAttributes s with
      | .error e => .error e
      | .ok d =>
        match extractSpanInfo k2c d (some d) with
        | .error e => .error e
        | .ok r =>
          exportGo net rest r.1 (i + 1) (att ++ [r.2])
            (if netFail (net i) then lg ++ [r.2] else lg)

/-- Model of `CustomConsoleExporter.export(spans)`: process every span,
then return `SpanExportResult.SUCCESS`.  The spans are given as the parsed
JSON values `json.loads(span.to_json(indent=2))`; the SDK serialization
itself is outside the model boundary. -/
def exportSpans (k2c : List (String × String)) (net : Nat → PostOutcome)
    (spans : List JVal) :
    Except PyErr (List (String × String) × List (List (String × Option String)) ×
      List (List (String × Option String)) × ExportResult) :=
  match exportGo net spans k2c 0 [] [] with
  | .error e => .error e
  | .ok r => .ok (r.1, r.2.1, r.2.2, .success)

/-- The per-span processing that precedes the POST, without the
`key_to_cvs` state (the `reassign` step on the variables dict never
fails): used to express "this span flattens successfully". -/
def spanVarsOf (s : JVal) : Except PyErr JObj :=
  match deserializeAttributes s with
  | .error e => .error e
  | .ok d => extractSpanInfoVars d (some d)

/-- Is an `Except` result a success? -/
def exIsOk {ε α : Type} : Except ε α → Bool
  | .ok _ => true
  | .error _ => false

/-- The export outcome reported to the SDK, when the batch loop finishes. -/
def exportOutcome (r : Except PyErr (List (String × String) ×
    List (List (String × Option String)) × List (List (String × Option String)) ×
    ExportResult)) : Option ExportResult :=
  match r with
  | .ok x => some x.2.2.2
  | .error _ => none

/-- Number of POSTs attempted by an export run. -/
def exportAttempted (r : Except PyErr (List (String × String) ×
    List (List (String × Option String)) × List (List (String × Option String)) ×
    ExportResult)) : Nat :=
  match r with
  | .ok x => x.2.1.length
  | .error _ => 0

/-- Number of payloads logged to the console by an export run. -/
def exportLoggedLen (r : Except PyErr (List (String × String) ×
    List (List (String × Option String)) × List (List (String × Option String)) ×
    ExportResult)) : Nat :=
  match r with
  | .ok x => x.2.2.1.length
  | .error _ => 0

/-- Count of failing POST outcomes among indices `i, i+1, ..., i+n-1`. -/
def failCount (net : Nat → PostOutcome) (i n : Nat) : Nat :=
  match n with
  | 0 => 0
  | n + 1 => (if netFail (net i) then 1 else 0) + failCount net (i + 1) n

/-- Model of `to_json_fallback(resp)` (`decorator.py` lines 15-34) on
JSON-like values: such values have no `model_dump_json` / `model_dump`
attribute, so those branches never fire; a dict is dumped with indent 2; a
string that parses as JSON is returned as is, any other value falls back to
an indented dump of a dict with the stringified value under "output"
(`json.loads` on a non-string raises `TypeError`, caught by the bare
`except`). -/
def toJsonFallback (resp : JVal) : String :=
  match resp with
  | .dict o => jsonDumpsInd (.dict o)
  | .str s =>
      match jsonLoads s with
      | some _ => s
      | none => jsonDumpsInd (.dict (.cons "output" (.str s) .nil))
  | other => jsonDumpsInd (.dict (.cons "output" (.str (pyStr other)) .nil))

/-- One run of the wrapper produced by `anosys_logger(source)`
(`decorator.py` lines 85-122). -/
structure WrapRun where
  output : JVal
  vars : JObj
  k2cOut : List (String × String)
  posted : List (String × Option String)
  logged : Bool
  ret : JVal

/-- Model of one invocation of the decorated callable: `printed` is what
the wrapped function writes to the redirected stdout, `ret` its return
value, `post` the POST outcome.  The wrapper computes
`output = text if text else printed_output.strip()`, serializes the
positional args, assigns `source`/`input`/`output`, posts
`reassign(variables)` with the decorator default starting index 100, and
returns the original return value. -/
def anosysWrapper (k2c : List (String × String)) (source : JVal) (args : List JVal)
    (printed : String) (ret : JVal) (post : PostOutcome) : WrapRun :=
  let output := if pyTruthy ret then ret else .str (pyStrip printed)
  let inputArr := JVal.arr (arrOfList (args.map toStrOrNone))
  let vars := assignV .nil "source" (toStrOrNone source)
  let vars := assignV vars "input" inputArr
  let vars := assignV vars "output" (.str (toJsonFallback output))
  let r := reassignObj k2c 100 vars
  { output := output, vars := vars, k2cOut := r.1, posted := r.2,
    logged := netFail post, ret := ret }

/-- New keys of a `reassign` call: the data keys absent from `key_to_cvs`,
in iteration order. -/
def newKeys (o : JObj) (k2c : List (String × String)) : List String :=
  (objKeys o).filter (fun k => (alook k2c k).isNone)

/-- The entries `reassign` appends for the new keys: consecutive `cvs` +
index tokens from a starting index. -/
def newTokens : List String → Nat → List (String × String)
  | [], _ => []
  | k :: tl, i => (k, "cvs" ++ Nat.repr i) :: newTokens tl (i + 1)

/-- Key membership in a plain string map. -/
def hasKeyB {α : Type} (l : List (String × α)) (k : String) : Bool :=
  (alook l k).isSome

/-- Dict predicate on a value. -/
def isDictVal : JVal → Bool
  | .dict _ => true
  | _ => false

/-- Spine induction for `JObj` (the mutual recursor is inconvenient for the
tactic framework; the proofs below never recurse into the values). -/
def JObj.spineInd {P : JObj → Prop} (nil : P .nil)
    (cons : ∀ k v tl, P tl → P (.cons k v tl)) : ∀ o, P o
  | .nil => nil
  | .cons k v tl => cons k v tl (JObj.spineInd nil cons tl)

/-- Acceptance predicate of `reassign`: a dict, or a string JSON-decoding
to a dict. -/
def reassignAccepts (data : JVal) : Bool :=
  match data with
  | .dict _ => true
  | .str s => isDictVal ((jsonLoads s).getD .null)
  | _ => false

/-- Concrete data for the `reassign` witnesses: one known key and two new
keys. -/
def oW : JObj := .cons "known" (.str "v") (.cons "alpha" .null (.cons "beta" (.int 3) .nil))

/-- Concrete prior Field Mapping for the `reassign` witnesses. -/
def k2cW : List (String × String) := [("known", "cvs5")]

/-- The spec's reconstruction example as input: the flat mapping with keys
"a.b.0.c" and "a.b.1.c". -/
def spanFlatExample : JVal :=
  .dict (.cons "attributes"
    (.dict (.cons "a.b.0.c" (.str "x") (.cons "a.b.1.c" (.str "y") .nil))) .nil)

/-- The tree the claim expects for the example: attributes.a.b is a
two-element list of mappings with key "c". -/
def claimedExampleTree : JVal :=
  .dict (.cons "attributes"
    (.dict (.cons "a" (.dict (.cons "b"
      (.arr (.cons (.dict (.cons "c" (.str "x") .nil))
        (.cons (.dict (.cons "c" (.str "y") .nil)) .nil))) .nil)) .nil)) .nil)

/-- The tree the code actually produces for the example: the parent-rewrite
writes the fresh list into the current dict under the key `parts[i-1]`
("b"), so the tree gains a nested "b" level, and the second write replaces
the whole list, losing the value "x". -/
def actualExampleTree : JVal :=
  .dict (.cons "attributes"
    (.dict (.cons "a" (.dict (.cons "b" (.dict (.cons "b"
      (.arr (.cons (.dict .nil)
        (.cons (.dict (.cons "c" (.str "y") .nil)) .nil))) .nil)) .nil)) .nil)) .nil)

/-- A span whose flat attributes contain a negative index segment. -/
def spanNegIdx : JVal :=
  .dict (.cons "attributes" (.dict (.cons "a.-1" (.str "x") .nil)) .nil)

/-- A span whose output attribute is a sequence whose first element is a
mapping with value.id — one of the claim's three resp_id shapes. -/
def spanOutputSeq : JVal :=
  .dict (.cons "attributes" (.dict (.cons "output"
    (.arr (.cons (.dict (.cons "value"
      (.dict (.cons "id" (.str "resp_123") .nil)) .nil)) .nil)) .nil)) .nil)

/-- A span whose output attribute is a mapping with value.id — the spec's
example shape. -/
def spanOutputMap : JVal :=
  .dict (.cons "attributes" (.dict (.cons "output"
    (.dict (.cons "value" (.dict (.cons "id" (.str "resp_123") .nil)) .nil)) .nil)) .nil)

/-- A span whose output attribute is a mapping whose value is a truthy
non-mapping. -/
def spanOutputValStr : JVal :=
  .dict (.cons "attributes" (.dict (.cons "output"
    (.dict (.cons "value" (.str "hello") .nil)) .nil)) .nil)

/-- POST environment for the export witness: the first POST fails with a
non-2xx status, the rest succeed. -/
def netW : Nat → PostOutcome := fun i => if i = 0 then .httpError else .ok2xx

theorem aset_absent {α : Type} (l : List (String × α)) (k : String) (v : α)
    (h : alook l k = none) : aset l k v = l ++ [(k, v)] := by
  induction l with
  | nil => rfl
  | cons p tl ih =>
    obtain ⟨k0, v0⟩ := p
    by_cases hk : k0 = k
    · simp [alook, hk] at h
    · simp only [alook, if_neg hk] at h
      simp [aset, if_neg hk, ih h]

theorem alook_append_left {α : Type} {l l2 : List (String × α)} {k : String} {t : α}
    (h : alook l k = some t) : alook (l ++ l2) k = some t := by
  induction l with
  | nil => simp [alook] at h
  | cons p tl ih =>
    obtain ⟨k0, v0⟩ := p
    by_cases hk : k0 = k
    · simp only [alook, if_pos hk] at h ⊢
      simpa using h
    · simp only [alook, if_neg hk] at h ⊢
      simpa using ih h

theorem alook_append_right {α : Type} {l : List (String × α)} {k : String}
    (h : alook l k = none) (l2 : List (String × α)) :
    alook (l ++ l2) k = alook l2 k := by
  induction l with
  | nil => rfl
  | cons p tl ih =>
    obtain ⟨k0, v0⟩ := p
    by_cases hk : k0 = k
    · simp [alook, hk] at h
    · simp only [alook, if_neg hk] at h
      simpa [alook, if_neg hk] using ih h

theorem alook_aset_self {α : Type} (l : List (String × α)) (k : String) (v : α) :
    alook (aset l k v) k = some v := by
  induction l with
  | nil => simp [aset, alook]
  | cons p tl ih =>
    obtain ⟨k0, v0⟩ := p
    by_cases hk : k0 = k
    · simp [aset, alook, hk]
    · simp [aset, alook, hk, ih]

theorem alook_aset_ne {α : Type} (l : List (String × α)) {k k2 : String} (v : α)
    (h : k ≠ k2) : alook (aset l k2 v) k = alook l k := by
  induction l with
  | nil => simp [aset, alook, Ne.symm h]
  | cons p tl ih =>
    obtain ⟨k0, v0⟩ := p
    by_cases hk : k0 = k2
    · subst hk
      simp [aset, alook, Ne.symm h]
    · by_cases hk0 : k0 = k
      · simp [aset, if_neg hk, alook, if_pos hk0]
      · simp [aset, if_neg hk, alook, if_neg hk0, ih]

theorem filter_congr_own {p q : String → Bool} :
    ∀ l : List String, (∀ x ∈ l, p x = q x) → l.filter p = l.filter q := by
  intro l
  induction l with
  | nil => intro _; rfl
  | cons a tl ih =>
    intro h
    have ha := h a (by simp)
    have htl := ih (fun x hx => h x (by simp [hx]))
    simp [List.filter, ha, htl]

theorem newTokens_alook :
    ∀ (ks : List String), ks.Nodup → ∀ (j : Nat) (hj : j < ks.length) (i : Nat),
      alook (newTokens ks i) (ks.get ⟨j, hj⟩) = some ("cvs" ++ Nat.repr (i + j)) := by
  intro ks
  induction ks with
  | nil => intro _ j hj; exact absurd hj (by simp)
  | cons a tl ih =>
    intro hnd j hj i
    match j with
    | 0 => simp [newTokens, alook, List.get]
    | j + 1 =>
      have hj2 : j < tl.length := by simpa using hj
      have ha : a ∉ tl := (List.nodup_cons.mp hnd).1
      have hmem : tl.get ⟨j, hj2⟩ ∈ tl := List.get_mem tl j hj2
      have hne : a ≠ tl.get ⟨j, hj2⟩ := fun he => ha (he ▸ hmem)
      have hrec := ih (List.nodup_cons.mp hnd).2 j hj2 (i + 1)
      have hgets : (a :: tl).get ⟨j + 1, hj⟩ = tl.get ⟨j, hj2⟩ := rfl
      rw [hgets]
      simp only [newTokens, alook, if_neg hne]
      rw [hrec]
      have harith : i + 1 + j = i + (j + 1) := by omega
      rw [harith]

theorem reassignLoop_k2c :
    ∀ (o : JObj), (objKeys o).Nodup →
      ∀ (k2c : List (String × String)) (idx : Nat)
        (out : List (String × Option String)),
        (reassignLoop o k2c idx out).1 = k2c ++ newTokens (newKeys o k2c) idx := by
  intro o
  induction o using JObj.spineInd with
  | nil => intro _ k2c idx out; simp [reassignLoop, newKeys, objKeys, newTokens]
  | cons k v tl ih =>
    intro hnd k2c idx out
    have hnd2 := List.nodup_cons.mp (by simpa [objKeys] using hnd)
    have hk : k ∉ objKeys tl := hnd2.1
    have hndtl : (objKeys tl).Nodup := hnd2.2
    cases hl : alook k2c k with
    | some t =>
      have hfil : newKeys (.cons k v tl) k2c = newKeys tl k2c := by
        simp [newKeys, objKeys, List.filter, hl]
      rw [hfil]
      simpa [reassignLoop, hl] using ih hndtl k2c idx (aset out t (pyStrOpt v))
    | none =>
      have hset : aset k2c k ("cvs" ++ Nat.repr idx) = k2c ++ [(k, "cvs" ++ Nat.repr idx)] :=
        aset_absent _ _ _ hl
      have hfil : newKeys tl (k2c ++ [(k, "cvs" ++ Nat.repr idx)]) = newKeys tl k2c := by
        apply filter_congr_own
        intro x hx
        have hxk : x ≠ k := fun he => hk (he ▸ hx)
        have hkx : ¬ k = x := fun he => hxk he.symm
        cases hx2 : alook k2c x with
        | some t2 => simp [alook_append_left hx2, hx2]
        | none =>
          rw [alook_append_right hx2]
          simp [alook, hkx, hx2]
      have step := ih hndtl (k2c ++ [(k, "cvs" ++ Nat.repr idx)]) (idx + 1)
        (aset out ("cvs" ++ Nat.repr idx) (pyStrOpt v))
      rw [hfil] at step
      have hnewk : newKeys (.cons k v tl) k2c = k :: newKeys tl k2c := by
        simp [newKeys, objKeys, List.filter, hl]
      simp only [reassignLoop, hl, hset, hnewk, newTokens] at step ⊢
      rw [step, List.append_assoc]
      rfl

theorem reassignLoop_grows :
    ∀ (o : JObj) (k2c : List (String × String)) (idx : Nat)
      (out : List (String × Option String)),
      ∃ tail, (reassignLoop o k2c idx out).1 = k2c ++ tail := by
  intro o
  induction o using JObj.spineInd with
  | nil => intro k2c idx out; exact ⟨[], by simp [reassignLoop]⟩
  | cons k v tl ih =>
    intro k2c idx out
    cases hl : alook k2c k with
    | some t => simpa [reassignLoop, hl] using ih k2c idx (aset out t (pyStrOpt v))
    | none =>
      obtain ⟨tail, htail⟩ := ih (aset k2c k ("cvs" ++ Nat.repr idx)) (idx + 1)
        (aset out ("cvs" ++ Nat.repr idx) (pyStrOpt v))
      refine ⟨(k, "cvs" ++ Nat.repr idx) :: tail, ?_⟩
      simp only [reassignLoop, hl]
      rw [htail, aset_absent _ _ _ hl, List.append_assoc]
      rfl

theorem reassignLoop_alook_pres
    (o : JObj) (k2c : List (String × String)) (idx : Nat)
    (out : List (String × Option String)) (k : String) (t : String)
    (h : alook k2c k = some t) : alook (reassignLoop o k2c idx out).1 k = some t := by
  obtain ⟨tail, htail⟩ := reassignLoop_grows o k2c idx out
  rw [htail]
  exact alook_append_left h

theorem hasKeyB_aset_mono {α : Type} (l : List (String × α)) (k k2 : String) (v : α)
    (h : hasKeyB l k = true) : hasKeyB (aset l k2 v) k = true := by
  by_cases hk : k = k2
  · subst hk
    simp [hasKeyB, alook_aset_self]
  · simpa [hasKeyB, alook_aset_ne l v hk] using h

theorem hasKeyB_aset_self {α : Type} (l : List (String × α)) (k : String) (v : α) :
    hasKeyB (aset l k v) k = true := by
  simp [hasKeyB, alook_aset_self]

theorem reassignLoop_out_mem :
    ∀ (o : JObj) (k2c : List (String × String)) (idx : Nat)
      (out : List (String × Option String)) (t : String),
      hasKeyB out t = true → hasKeyB (reassignLoop o k2c idx out).2 t = true := by
  intro o
  induction o using JObj.spineInd with
  | nil => intro k2c idx out t h; simpa [reassignLoop] using h
  | cons k v tl ih =>
    intro k2c idx out t h
    cases hl : alook k2c k with
    | some t2 =>
      simpa [reassignLoop, hl] using ih k2c idx _ t (hasKeyB_aset_mono _ _ _ _ h)
    | none =>
      simpa [reassignLoop, hl] using ih _ (idx + 1) _ t (hasKeyB_aset_mono _ _ _ _ h)

theorem reassignLoop_known_key :
    ∀ (o : JObj) (k2c : List (String × String)) (idx : Nat)
      (out : List (String × Option String)) (k : String) (t : String),
      alook k2c k = some t → objHasKey o k = true →
      hasKeyB (reassignLoop o k2c idx out).2 t = true := by
  intro o
  induction o using JObj.spineInd with
  | nil => intro k2c idx out k t _ hmem; simp [objHasKey, objLookup] at hmem
  | cons k0 v tl ih =>
    intro k2c idx out k t hl hmem
    by_cases hk : k0 = k
    · subst hk
      simp only [reassignLoop, hl]
      exact reassignLoop_out_mem tl k2c idx _ t (hasKeyB_aset_self _ _ _)
    · have hmem2 : objHasKey tl k = true := by
        simpa [objHasKey, objLookup, hk] using hmem
      cases hl0 : alook k2c k0 with
      | some t0 => simpa [reassignLoop, hl0] using ih k2c idx _ k t hl hmem2
      | none =>
        have hl2 : alook (aset k2c k0 ("cvs" ++ Nat.repr idx)) k = some t := by
          rw [alook_aset_ne _ _ (fun he => hk he.symm)]; exact hl
        simpa [reassignLoop, hl0] using ih _ (idx + 1) _ k t hl2 hmem2

/-- C4: for every input mapping and starting index, `reassign` assigns each
key not already in the Field Mapping the token `"cvs" + i`, with `i`
starting at the call's `starting_index` and incrementing by one per new key
in the mapping's iteration order, independently of tokens allocated by
prior calls (the counter restarts at `starting_index` whatever `key_to_cvs`
already contains); keys already present keep their assigned token. -/
theorem reassign_fresh_token_allocation
    (k2c : List (String × String)) (o : JObj) (si : Nat)
    (res : List (String × String) × List (String × Option String))
    (hnd : (objKeys o).Nodup)
    (hrun : reassign k2c (.dict o) si = .ok res) :
    res.1 = k2c ++ newTokens (newKeys o k2c) si ∧
    (∀ (j : Nat) (hj : j < (newKeys o k2c).length),
      alook res.1 ((newKeys o k2c).get ⟨j, hj⟩) = some ("cvs" ++ Nat.repr (si + j))) ∧
    (∀ (k t : String), alook k2c k = some t → alook res.1 k = some t) := by
  have h2 : Except.ok (ε := PyErr) (reassignObj k2c si o) = .ok res := hrun
  injection h2 with h3
  subst h3
  refine ⟨reassignLoop_k2c o hnd k2c si [], ?_, ?_⟩
  · intro j hj
    have hchar := reassignLoop_k2c o hnd k2c si []
    have hget_mem : (newKeys o k2c).get ⟨j, hj⟩ ∈ newKeys o k2c := List.get_mem _ j hj
    have hnone : alook k2c ((newKeys o k2c).get ⟨j, hj⟩) = none := by
      have hm := List.mem_filter.mp hget_mem
      exact Option.isNone_iff_eq_none.mp hm.2
    have hndk : (newKeys o k2c).Nodup := hnd.filter _
    show alook (reassignLoop o k2c si []).1 _ = _
    rw [hchar, alook_append_right hnone]
    exact newTokens_alook _ hndk j hj si
  · intro k t h
    exact reassignLoop_alook_pres o k2c si [] k t h

theorem reassign_fresh_token_allocation_witness :
    alook (reassignObj k2cW 7 oW).1 "alpha" = some "cvs7" ∧
    alook (reassignObj k2cW 7 oW).1 "beta" = some "cvs8" ∧
    alook (reassignObj k2cW 7 oW).1 "known" = some "cvs5" := by
  have h := reassign_fresh_token_allocation k2cW oW 7 (reassignObj k2cW 7 oW)
    (by decide) rfl
  have hj0 : (0 : Nat) < (newKeys oW k2cW).length := by decide
  have hj1 : (1 : Nat) < (newKeys oW k2cW).length := by decide
  have h0 := h.2.1 0 hj0
  have h1 := h.2.1 1 hj1
  rw [show (newKeys oW k2cW).get ⟨0, hj0⟩ = "alpha" from rfl,
      show ("cvs" ++ Nat.repr (7 + 0)) = "cvs7" from rfl] at h0
  rw [show (newKeys oW k2cW).get ⟨1, hj1⟩ = "beta" from rfl,
      show ("cvs" ++ Nat.repr (7 + 1)) = "cvs8" from rfl] at h1
  exact ⟨h0, h1, h.2.2 "known" "cvs5" rfl⟩

theorem reassign_dict_eq (k2c : List (String × String)) (si : Nat) (o : JObj) :
    reassign k2c (.dict o) si = .ok (reassignObj k2c si o) := rfl

theorem reassign_str_none (k2c : List (String × String)) (si : Nat) {s : String}
    (hjs : jsonLoads s = none) :
    reassign k2c (.str s) si = .error .jsonDecodeError := by
  simp only [reassign, hjs]
  rfl

theorem reassign_str_dict (k2c : List (String × String)) (si : Nat) {s : String} {o : JObj}
    (hjs : jsonLoads s = some (.dict o)) :
    reassign k2c (.str s) si = .ok (reassignObj k2c si o) := by
  simp only [reassign, hjs]
  rfl

theorem reassign_str_nondict (k2c : List (String × String)) (si : Nat) {s : String} {v : JVal}
    (hjs : jsonLoads s = some v) (hv : isDictVal v = false) :
    reassign k2c (.str s) si = .error .valueError := by
  cases v <;>
    first
    | (simp only [reassign, hjs]; rfl)
    | (simp [isDictVal] at hv)

/-- C5: one call of `reassign` never removes or overwrites an existing
`key_to_cvs` entry (the mapping only grows by a suffix of new keys, and an
existing key keeps its token), and a key already known keeps producing its
old token: the output dict contains an entry under that same token.  Since
the global mapping is only ever touched by `reassign`, the per-call
statement gives the process-lifetime invariant by composition. -/
theorem reassign_never_rebinds
    (k2c : List (String × String)) (data : JVal) (si : Nat)
    (res : List (String × String) × List (String × Option String))
    (hrun : reassign k2c data si = .ok res) :
    (∃ tail, res.1 = k2c ++ tail) ∧
    (∀ (k t : String), alook k2c k = some t → alook res.1 k = some t) ∧
    (∀ (o : JObj), data = .dict o → ∀ (k t : String), alook k2c k = some t →
      objHasKey o k = true → hasKeyB res.2 t = true) := by
  cases data with
  | dict o =>
    rw [reassign_dict_eq] at hrun
    injection hrun with h3
    subst h3
    refine ⟨reassignLoop_grows o k2c si [], ?_, ?_⟩
    · intro k t h
      exact reassignLoop_alook_pres o k2c si [] k t h
    · intro o2 heq k t hl hmem
      have h4 : o = o2 := by injection heq
      subst h4
      exact reassignLoop_known_key o k2c si [] k t hl hmem
  | str s =>
    cases hjs : jsonLoads s with
    | none =>
      rw [reassign_str_none k2c si hjs] at hrun
      exact absurd hrun (by simp)
    | some v =>
      cases hv : isDictVal v with
      | false =>
        rw [reassign_str_nondict k2c si hjs hv] at hrun
        exact absurd hrun (by simp)
      | true =>
        cases v with
        | dict o =>
          rw [reassign_str_dict k2c si hjs] at hrun
          injection hrun with h3
          subst h3
          refine ⟨reassignLoop_grows o k2c si [], ?_, ?_⟩
          · intro k t h
            exact reassignLoop_alook_pres o k2c si [] k t h
          · intro o2 heq
            exact absurd heq (by intro h; exact JVal.noConfusion h)
        | null => simp [isDictVal] at hv
        | bool b => simp [isDictVal] at hv
        | int n => simp [isDictVal] at hv
        | str s2 => simp [isDictVal] at hv
        | arr a => simp [isDictVal] at hv
  | null => exact absurd hrun (by intro h; exact Except.noConfusion h)
  | bool b => exact absurd hrun (by intro h; exact Except.noConfusion h)
  | int n => exact absurd hrun (by intro h; exact Except.noConfusion h)
  | arr a => exact absurd hrun (by intro h; exact Except.noConfusion h)

theorem reassign_never_rebinds_witness :
    (∃ tail, (reassignObj k2cW 7 oW).1 = k2cW ++ tail) ∧
    alook (reassignObj k2cW 7 oW).1 "known" = some "cvs5" ∧
    hasKeyB (reassignObj k2cW 7 oW).2 "cvs5" = true := by
  have h := reassign_never_rebinds k2cW (.dict oW) 7 (reassignObj k2cW 7 oW) rfl
  exact ⟨h.1, h.2.1 "known" "cvs5" rfl, h.2.2 oW rfl "known" "cvs5" rfl (by decide)⟩

/-- C9: `reassign` fails exactly on inputs that are neither a dict nor a
string JSON-decoding to a dict; every failure is a validation error
(`ValueError`, of which `json.JSONDecodeError` is a subclass), surfacing
synchronously as the modelled `Except` result; and a string decoding to a
dict is processed exactly like that dict. -/
theorem reassign_validation_iff (k2c : List (String × String)) (data : JVal) (si : Nat) :
    (exIsOk (reassign k2c data si) = reassignAccepts data) ∧
    (∀ e, reassign k2c data si = .error e → e.isValidation = true) ∧
    (∀ (s : String) (d : JVal), data = .str s → jsonLoads s = some d →
      isDictVal d = true → reassign k2c data si = reassign k2c d si) := by
  cases data with
  | dict o =>
    refine ⟨rfl, ?_, ?_⟩
    · intro e he
      rw [reassign_dict_eq] at he
      exact absurd he (by intro h; exact Except.noConfusion h)
    · intro s d heq
      exact absurd heq (by intro h; exact JVal.noConfusion h)
  | str s =>
    refine ⟨?_, ?_, ?_⟩
    · cases hjs : jsonLoads s with
      | none =>
        rw [reassign_str_none k2c si hjs]
        simp [reassignAccepts, hjs, exIsOk, isDictVal]
      | some v =>
        cases hv : isDictVal v with
        | false =>
          rw [reassign_str_nondict k2c si hjs hv]
          simp [reassignAccepts, hjs, exIsOk, hv]
        | true =>
          cases v with
          | dict o =>
            rw [reassign_str_dict k2c si hjs]
            simp [reassignAccepts, hjs, exIsOk, isDictVal]
          | null => simp [isDictVal] at hv
          | bool b => simp [isDictVal] at hv
          | int n => simp [isDictVal] at hv
          | str s2 => simp [isDictVal] at hv
          | arr a => simp [isDictVal] at hv
    · intro e he
      cases hjs : jsonLoads s with
      | none =>
        rw [reassign_str_none k2c si hjs] at he
        injection he with h3
        subst h3
        rfl
      | some v =>
        cases hv : isDictVal v with
        | false =>
          rw [reassign_str_nondict k2c si hjs hv] at he
          injection he with h3
          subst h3
          rfl
        | true =>
          cases v with
          | dict o =>
            rw [reassign_str_dict k2c si hjs] at he
            exact absurd he (by intro h; exact Except.noConfusion h)
          | null => simp [isDictVal] at hv
          | bool b => simp [isDictVal] at hv
          | int n => simp [isDictVal] at hv
          | str s2 => simp [isDictVal] at hv
          | arr a => simp [isDictVal] at hv
    · intro s2 d heq hload hdict
      have h3 : s2 = s := by injection heq with h4; exact h4.symm
      subst h3
      cases d with
      | dict o =>
        rw [reassign_str_dict k2c si hload, reassign_dict_eq]
      | null => simp [isDictVal] at hdict
      | bool b => simp [isDictVal] at hdict
      | int n => simp [isDictVal] at hdict
      | str s3 => simp [isDictVal] at hdict
      | arr a => simp [isDictVal] at hdict
  | null =>
    refine ⟨rfl, ?_, ?_⟩
    · intro e he
      have h3 : PyErr.valueError = e := by injection he
      subst h3
      rfl
    · intro s d heq
      exact absurd heq (by intro h; exact JVal.noConfusion h)
  | bool b =>
    refine ⟨rfl, ?_, ?_⟩
    · intro e he
      have h3 : PyErr.valueError = e := by injection he
      subst h3
      rfl
    · intro s d heq
      exact absurd heq (by intro h; exact JVal.noConfusion h)
  | int n =>
    refine ⟨rfl, ?_, ?_⟩
    · intro e he
      have h3 : PyErr.valueError = e := by injection he
      subst h3
      rfl
    · intro s d heq
      exact absurd heq (by intro h; exact JVal.noConfusion h)
  | arr a =>
    refine ⟨rfl, ?_, ?_⟩
    · intro e he
      have h3 : PyErr.valueError = e := by injection he
      subst h3
      rfl
    · intro s d heq
      exact absurd heq (by intro h; exact JVal.noConfusion h)

theorem reassign_validation_iff_witness :
    reassign k2cW (.str "\x7b\"known\": 1\x7d") 7 =
      reassign k2cW (.dict (.cons "known" (.int 1) .nil)) 7 := by
  have h := reassign_validation_iff k2cW (.str "\x7b\"known\": 1\x7d") 7
  exact h.2.2 "\x7b\"known\": 1\x7d" (.dict (.cons "known" (.int 1) .nil)) rfl rfl rfl

/-- C1: evaluating the code on the spec's own reconstruction example.  The
claim expects attributes = a.b = [ [c: x], [c: y] ]; the code instead
produces a.b.b = [ empty, [c: y] ], losing "x": the `current_parent =
current` slip in `set_nested` hooks the replacement list into the current
dict rather than its parent, and the second key's write discards the first
list wholesale. -/
theorem deserialize_example_divergence :
    deserializeAttributes spanFlatExample = .ok actualExampleTree ∧
    deserializeAttributes spanFlatExample ≠ .ok claimedExampleTree := by
  refine ⟨rfl, ?_⟩
  intro h
  rw [show deserializeAttributes spanFlatExample = .ok actualExampleTree from rfl] at h
  injection h with h2
  exact absurd (congrArg jsonDumps h2) (by decide)

/-- C2 counterexample: with a numeric first path segment the write is not
silently skipped.  `set_nested({}, "0", v)` evaluates `parts[-2]` on a
single-element list and raises `IndexError` (refuting "no error is
raised"), and `set_nested({}, "0.c", v)` rewrites the target under the key
`parts[0-1] = parts[-1] = "c"`, leaving a changed tree (refuting "the
target tree is left unchanged"). -/
theorem set_nested_numeric_head_counterexample :
    setNested (JVal.dict .nil) "0" (.str "v") = .error .indexError ∧
    setNested (JVal.dict .nil) "0.c" (.str "v") =
      .ok (.dict (.cons "c" (.arr (.cons (.dict (.cons "c" (.str "v") .nil)) .nil)) .nil)) ∧
    JVal.dict (.cons "c" (.arr (.cons (.dict (.cons "c" (.str "v") .nil)) .nil)) .nil) ≠
      JVal.dict .nil := by
  refine ⟨rfl, rfl, ?_⟩
  intro h
  injection h with h2
  exact JObj.noConfusion h2

/-- C2 amended: when the first path segment is numeric and the target is a
mapping, the replacement is not skipped: Python's negative indexing makes
`parts[i-1]` at `i = 0` the last segment, so for a multi-segment path such
as "0.c" the fresh sequence is written into the target under the last
segment's name and the tree does change; for a single-segment numeric path
such as "0", evaluating `parts[-2]` raises an uncaught `IndexError`. -/
theorem set_nested_numeric_head_amended (v : JVal) :
    setNested (JVal.dict .nil) "0.c" v =
      .ok (.dict (.cons "c" (.arr (.cons (.dict (.cons "c" (setNorm v) .nil)) .nil)) .nil)) ∧
    setNested (JVal.dict .nil) "0" v = .error .indexError :=
  ⟨rfl, rfl⟩

/-- C10: `set_nested` is not total — a negative decimal segment parses via
`int()`, the growth loop never runs (`len` is never ≤ a negative index),
and indexing the fresh empty sequence raises `IndexError`, which escapes
`set_nested` and `deserialize_attributes`. -/
theorem set_nested_negative_index_raises :
    setNested (JVal.dict .nil) "a.-1" (.str "x") = .error .indexError ∧
    deserializeAttributes spanNegIdx = .error .indexError :=
  ⟨rfl, rfl⟩

/-- C6 counterexample: a whitespace-prefixed JSON-looking string that fails
to parse is stored stripped, not as the raw string. -/
theorem assign_strip_counterexample :
    assignV .nil "k" (.str " \x7boops") = .cons "k" (.str "\x7boops") .nil ∧
    " \x7boops" ≠ "\x7boops" :=
  ⟨rfl, by decide⟩

/-- C6 amended: the normalizer parses a stripped-JSON-looking string and
stores the canonical compact serialization (so the original text
`\x7b"a":1\x7d` is stored as `json.dumps` output, with a space after the
colon, not as the original string); a JSON-looking string that fails to
parse passes through as the *stripped* string; null stays null; dicts and
lists are JSON-serialized; and every string value is stored either
stripped or canonicalized. -/
theorem assign_normalization :
    (assignNorm (.str "\x7b\"a\":1\x7d") = .str (jsonDumps (.dict (.cons "a" (.int 1) .nil))) ∧
      jsonDumps (.dict (.cons "a" (.int 1) .nil)) = "\x7b\"a\": 1\x7d" ∧
      "\x7b\"a\": 1\x7d" ≠ "\x7b\"a\":1\x7d") ∧
    (assignNorm (.str "\x7boops") = .str "\x7boops") ∧
    (assignNorm .null = .null) ∧
    (∀ o : JObj, assignNorm (.dict o) = .str (jsonDumps (.dict o))) ∧
    (∀ a : JArr, assignNorm (.arr a) = .str (jsonDumps (.arr a))) ∧
    (∀ s : String, assignNorm (.str s) = .str (pyStrip s) ∨
      ∃ p, jsonLoads (pyStrip s) = some p ∧ assignNorm (.str s) = .str (jsonDumps p)) := by
  refine ⟨⟨rfl, rfl, by decide⟩, rfl, rfl, fun o => rfl, fun a => rfl, ?_⟩
  intro s
  cases hb : startsBrace (pyStrip s) with
  | false => left; simp [assignNorm, hb]
  | true =>
    cases hl : jsonLoads (pyStrip s) with
    | none => left; simp [assignNorm, hb, hl]
    | some p => right; exact ⟨p, rfl, by simp [assignNorm, hb, hl]⟩

/-- C8 counterexample: with a falsy return value the logged output is the
*stripped* captured text, not the captured text itself. -/
theorem wrapper_output_strip_counterexample :
    (anosysWrapper keyToCvsDec0 .null [] " hi \n" .null .ok2xx).output = .str "hi" ∧
    "hi" ≠ " hi \n" :=
  ⟨rfl, by decide⟩

/-- C8 amended: the wrapper's logged output is the callable's return value
when truthy, otherwise the whitespace-stripped captured stdout text; the
original return value is handed back unchanged; and for a callable that
prints "hello" (capturing "hello" plus print's newline) and returns None,
the output is exactly "hello". -/
theorem wrapper_output_rule (k2c : List (String × String)) (source : JVal)
    (args : List JVal) (printed : String) (ret : JVal) (post : PostOutcome) :
    ((anosysWrapper k2c source args printed ret post).output =
      if pyTruthy ret then ret else .str (pyStrip printed)) ∧
    ((anosysWrapper k2c source args printed ret post).ret = ret) ∧
    ((anosysWrapper k2c source args "hello\n" .null post).output = .str "hello") :=
  ⟨rfl, rfl, rfl⟩

/-- C3 counterexample: a span whose output attribute is a sequence shape
the claim covers (first element a mapping with value.id "resp_123") does
not yield that resp_id: `extract_span_info` raises an uncaught
`AttributeError` earlier, at `attributes.get('output', \x7b\x7d).get('value')`,
because `.get` is called on a list. -/
theorem resp_id_claim_counterexample :
    extractSpanInfoVars spanOutputSeq none = .error .attributeError := rfl

/-- C3 amended: the resp_id probe itself (`respIdOf`) recognizes the three
shapes, and with a mapping-shaped output carrying value.id the variables
dict holds resp_id "resp_123" (the spec's example); with no output
attribute resp_id is null; but a sequence- or string-shaped output raises
an uncaught `AttributeError` earlier in `extract_span_info` (at the
`.get('value')` of the output assignment), a mapping output whose value is
a truthy non-mapping raises `AttributeError` inside the probe, and only
the JSON-string branch of the probe swallows its exceptions. -/
theorem resp_id_probe_amended :
    (Except.map (fun vs => objLookup vs "resp_id")
      (extractSpanInfoVars spanOutputMap none) = .ok (some (.str "resp_123"))) ∧
    (Except.map (fun vs => objLookup vs "resp_id")
      (extractSpanInfoVars (JVal.dict .nil) none) = .ok (some .null)) ∧
    (respIdOf (.arr (.cons (.dict (.cons "value"
      (.dict (.cons "id" (.str "L1") .nil)) .nil)) .nil)) = .ok (.str "L1")) ∧
    (respIdOf (.str "\x7b\"value\": \x7b\"id\": \"resp_9\"\x7d\x7d") = .ok (.str "resp_9")) ∧
    (respIdOf (.str "\x7b\"value\": \"h\"\x7d") = .ok .null) ∧
    (extractSpanInfoVars spanOutputValStr none = .error .attributeError) ∧
    (respIdOf (.int 5) = .ok .null) :=
  ⟨rfl, rfl, rfl, rfl, rfl, rfl, rfl⟩

theorem spanVarsOf_err {s : JVal} {e : PyErr} (hd : deserializeAttributes s = .error e) :
    spanVarsOf s = .error e := by
  simp only [spanVarsOf, hd]

theorem spanVarsOf_ok {s d : JVal} (hd : deserializeAttributes s = .ok d) :
    spanVarsOf s = extractSpanInfoVars d (some d) := by
  simp only [spanVarsOf, hd]

theorem extractSpanInfo_ok (k2c : List (String × String)) {d : JVal} {vars : JObj}
    (hv : extractSpanInfoVars d (some d) = .ok vars) :
    extractSpanInfo k2c d (some d) = .ok (reassignObj k2c 20 vars) := by
  simp only [extractSpanInfo, hv]
  exact reassign_dict_eq k2c 20 vars

theorem exportGo_cons (net : Nat → PostOutcome) (s : JVal) (rest : List JVal)
    (k2c : List (String × String)) (i : Nat)
    (att lg : List (List (String × Option String))) {d : JVal} {vars : JObj}
    (hd : deserializeAttributes s = .ok d)
    (hv : extractSpanInfoVars d (some d) = .ok vars) :
    exportGo net (s :: rest) k2c i att lg =
      exportGo net rest (reassignObj k2c 20 vars).1 (i + 1)
        (att ++ [(reassignObj k2c 20 vars).2])
        (if netFail (net i) then lg ++ [(reassignObj k2c 20 vars).2] else lg) := by
  simp only [exportGo, hd, extractSpanInfo_ok k2c hv]

theorem exportGo_total (net : Nat → PostOutcome) :
    ∀ (spans : List JVal), (∀ s ∈ spans, exIsOk (spanVarsOf s) = true) →
    ∀ (k2c : List (String × String)) (i : Nat)
      (att lg : List (List (String × Option String))),
      ∃ k2c2 att2 lg2, exportGo net spans k2c i att lg = .ok (k2c2, att2, lg2) ∧
        att2.length = att.length + spans.length ∧
        lg2.length = lg.length + failCount net i spans.length := by
  intro spans
  induction spans with
  | nil =>
    intro _ k2c i att lg
    exact ⟨k2c, att, lg, rfl, by simp, by simp [failCount]⟩
  | cons s rest ih =>
    intro h k2c i att lg
    have hs := h s (by simp)
    cases hd : deserializeAttributes s with
    | error e =>
      rw [spanVarsOf_err hd] at hs
      simp [exIsOk] at hs
    | ok d =>
      rw [spanVarsOf_ok hd] at hs
      cases hv : extractSpanInfoVars d (some d) with
      | error e =>
        rw [hv] at hs
        simp [exIsOk] at hs
      | ok vars =>
        have hrest : ∀ x ∈ rest, exIsOk (spanVarsOf x) = true :=
          fun x hx => h x (by simp [hx])
        cases hnf : netFail (net i) with
        | true =>
          obtain ⟨k2c2, att2, lg2, heq, hatt, hlg⟩ :=
            ih hrest (reassignObj k2c 20 vars).1 (i + 1)
              (att ++ [(reassignObj k2c 20 vars).2])
              (lg ++ [(reassignObj k2c 20 vars).2])
          refine ⟨k2c2, att2, lg2, ?_, ?_, ?_⟩
          · rw [exportGo_cons net s rest k2c i att lg hd hv, hnf]
            simpa using heq
          · rw [hatt]
            simp
            omega
          · rw [hlg]
            simp only [failCount, hnf, List.length_append, List.length_cons,
              List.length_nil, if_true]
            omega
        | false =>
          obtain ⟨k2c2, att2, lg2, heq, hatt, hlg⟩ :=
            ih hrest (reassignObj k2c 20 vars).1 (i + 1)
              (att ++ [(reassignObj k2c 20 vars).2]) lg
          refine ⟨k2c2, att2, lg2, ?_, ?_, ?_⟩
          · rw [exportGo_cons net s rest k2c i att lg hd hv, hnf]
            simpa using heq
          · rw [hatt]
            simp
            omega
          · rw [hlg]
            simp only [failCount, hnf, Bool.false_eq_true, if_false]
            omega

/-- C7 amended: for a batch whose spans all flatten successfully (the
per-span processing before the POST raises nothing), the export loop
attempts one POST per span whatever the POST outcomes are, logs exactly
the payloads of the failing POSTs, never raises, and reports SUCCESS to
the SDK.  (The restriction is needed: span processing happens outside the
`try`, so a span whose flattening raises aborts the batch — see the
counterexample.) -/
theorem export_batch_resilient (k2c : List (String × String))
    (net : Nat → PostOutcome) (spans : List JVal)
    (h : ∀ s ∈ spans, exIsOk (spanVarsOf s) = true) :
    exportOutcome (exportSpans k2c net spans) = some .success ∧
    exportAttempted (exportSpans k2c net spans) = spans.length ∧
    exportLoggedLen (exportSpans k2c net spans) = failCount net 0 spans.length := by
  obtain ⟨k2c2, att2, lg2, heq, hatt, hlg⟩ := exportGo_total net spans h k2c 0 [] []
  have hx : exportSpans k2c net spans = .ok (k2c2, att2, lg2, .success) := by
    simp only [exportSpans, heq]
  rw [hx]
  refine ⟨rfl, ?_, ?_⟩
  · show att2.length = spans.length
    simpa using hatt
  · show lg2.length = failCount net 0 spans.length
    simpa using hlg

theorem export_batch_resilient_witness :
    exportOutcome (exportSpans keyToCvs0 netW [JVal.dict .nil, JVal.dict .nil]) =
      some .success ∧
    exportAttempted (exportSpans keyToCvs0 netW [JVal.dict .nil, JVal.dict .nil]) = 2 ∧
    exportLoggedLen (exportSpans keyToCvs0 netW [JVal.dict .nil, JVal.dict .nil]) = 1 := by
  have hpre : ∀ s ∈ [JVal.dict JObj.nil, JVal.dict JObj.nil],
      exIsOk (spanVarsOf s) = true := by
    intro s hs
    have : s = JVal.dict JObj.nil := by
      rcases List.mem_cons.mp hs with h1 | h1
      · exact h1
      · rcases List.mem_cons.mp h1 with h2 | h2
        · exact h2
        · exact absurd h2 (List.not_mem_nil s)
    rw [this]
    rfl
  have h := export_batch_resilient keyToCvs0 netW [JVal.dict .nil, JVal.dict .nil] hpre
  refine ⟨h.1, by simpa using h.2.1, ?_⟩
  rw [h.2.2]
  rfl

/-- C7 counterexample: a batch containing a span whose attributes hold the
malformed key "a.-1" followed by a well-formed span: the negative-index
`IndexError` escapes the loop (the reconstruction and flattening calls sit
outside the `try`), so not every span is attempted and the export raises
instead of returning a result. -/
theorem export_batch_raises_counterexample :
    exportSpans keyToCvs0 (fun _ => .ok2xx) [spanNegIdx, JVal.dict .nil] =
      .error .indexError := rfl
